import Mathlib

/-!
Verification of the vid2script chunk-scheduling and context-propagation
pipeline.  The Python sources (video_chunker.py, prompt_builder.py,
claude_runner.py, generate_transcript.py) are shallowly embedded:
Python floats become rationals, fallible operations return Option or
Except, and the two external effects (OpenCV frame retrieval and the
Anthropic API) are modelled as explicit oracles.
-/

/-! ## Python string primitives

The Python string operations used by the sources are re-implemented on
`List Char` so that every definition is executable and kernel-reducible.
-/

/-- Split a character list at every character satisfying `p`, keeping empty
segments, as Python `str.split(sep)` does for a one-character separator. -/
def splitOnP (p : Char → Bool) : List Char → List (List Char)
  | [] => [[]]
  | x :: xs =>
    match splitOnP p xs with
    | [] => [[]]
    | h :: t => if p x then [] :: h :: t else (x :: h) :: t

/-- Python `s.split('\n')`: split on newline characters, keeping empties. -/
def pySplitNL (s : String) : List String :=
  (splitOnP (fun c => c == '\n') s.data).map String.mk

/-- Python `s.split()` with no argument: split on whitespace runs and drop
empty segments. -/
def pySplitWs (s : String) : List String :=
  ((splitOnP Char.isWhitespace s.data).map String.mk).filter (fun w => w ≠ "")

/-- Python `s.strip()`: drop leading and trailing whitespace. -/
def pyStrip (s : String) : String :=
  String.mk (((s.data.dropWhile Char.isWhitespace).reverse.dropWhile
    Char.isWhitespace).reverse)

/-- Python `s.lower()` (ASCII letters, which is all the sources use). -/
def pyLower (s : String) : String :=
  String.mk (s.data.map Char.toLower)

/-- Python `s.startswith(pre)`. -/
def pyStartsWith (s pre : String) : Bool :=
  s.data.take pre.data.length == pre.data

/-- Python `sep.join(parts)`. -/
def joinSep (sep : String) : List String → String
  | [] => ""
  | [x] => x
  | x :: y :: t => x ++ sep ++ joinSep sep (y :: t)

/-- One pass implementing `s.replace('\r\n','\n').replace('\r','\n')`:
every CRLF pair and every remaining CR becomes a single LF. -/
def normalizeEolList : List Char → List Char
  | [] => []
  | '\r' :: '\n' :: rest => '\n' :: normalizeEolList rest
  | '\r' :: rest => '\n' :: normalizeEolList rest
  | c :: rest => c :: normalizeEolList rest

/-- Python `int(q)` on a real value: truncation toward zero. -/
def pyInt (q : ℚ) : ℤ :=
  if 0 ≤ q then ⌊q⌋ else ⌈q⌉

/-- Round half to even, the rounding used by Python float formatting. -/
def roundHalfEven (q : ℚ) : ℤ :=
  let n := ⌊q⌋
  let f := q - n
  if f < 1/2 then n
  else if 1/2 < f then n + 1
  else if n % 2 = 0 then n else n + 1

/-- Python `"%.1f" % q` / `f"{q:.1f}"`: one decimal digit, half-even. -/
def fmt1 (q : ℚ) : String :=
  let m := roundHalfEven (q * 10)
  let sign := if m < 0 then "-" else ""
  let a := m.natAbs
  sign ++ toString (a / 10) ++ "." ++ toString (a % 10)

/-- Zero-padded two-digit rendering, Python `f"{n:02d}"` for `n ≥ 0`. -/
def pad2 (n : ℕ) : String :=
  if n < 10 then "0" ++ toString n else toString n

/-! ## video_chunker.py -/

/-- `VideoChunk` dataclass (video_chunker.py lines 8-13).  Its fields are
exactly `start_time`, `end_time`, `frames`, `formatted_timestamp` — the
dataclass declares no `duration` field.  Frames are carried as their
base64 strings; JPEG/base64 encoding of the raw raster is an external
library call and is folded into the frame-retrieval oracle below. -/
structure VideoChunk where
  start_time : ℚ
  end_time : ℚ
  frames : List String
  formatted_timestamp : String
deriving DecidableEq

/-- The value of a Python attribute of a `VideoChunk`. -/
inductive PyValue where
  | num (q : ℚ)
  | strList (l : List String)
  | str (s : String)
deriving DecidableEq

/-- Python attribute lookup on a `VideoChunk` instance: `some` for the four
declared dataclass fields, `none` (an `AttributeError`) for anything else. -/
def VideoChunk.getattr (c : VideoChunk) : String → Option PyValue
  | "start_time" => some (.num c.start_time)
  | "end_time" => some (.num c.end_time)
  | "frames" => some (.strList c.frames)
  | "formatted_timestamp" => some (.str c.formatted_timestamp)
  | _ => none

/-- `VideoChunker.__init__` configuration (video_chunker.py lines 16-19). -/
structure VideoChunker where
  chunk_duration : ℚ
  frames_per_chunk : ℕ
deriving DecidableEq

/-- `VideoChunker._format_timestamp` (lines 25-28):
`minutes = int(seconds // 60); seconds = int(seconds % 60)`, rendered as
`[MM:SS]`.  For the nonnegative times produced by the chunk walk both
`int` conversions are floors. -/
def formatTimestamp (seconds : ℚ) : String :=
  let minutes := ⌊seconds / 60⌋
  let secs := ⌊seconds - 60 * (⌊seconds / 60⌋ : ℚ)⌋
  "[" ++ pad2 minutes.toNat ++ ":" ++ pad2 secs.toNat ++ "]"

/-- The sampling timestamps of `_extract_chunk_frames` (lines 57-63):
`frame_interval = (e - s) / (k + 1)` and `timestamp = s + i * frame_interval`
for `i` in `range(1, k + 1)`. -/
def sampleTimestamps (k : ℕ) (s e : ℚ) : List ℚ :=
  (List.range k).map fun (i : ℕ) =>
    s + ((i : ℚ) + 1) * ((e - s) / ((k : ℚ) + 1))

/-- `VideoChunker._extract_chunk_frames` (lines 55-74).  `read` is the
oracle for `_get_frame_at_time` followed by `_encode_frame`: given the
frame index `int(timestamp * fps)` it returns the encoded frame, or `none`
when `cap.read()` fails; failed timestamps are skipped. -/
def extractChunkFrames (ck : VideoChunker) (read : ℤ → Option String)
    (fps s e : ℚ) : VideoChunk :=
  { start_time := s
    end_time := e
    frames := (sampleTimestamps ck.frames_per_chunk s e).filterMap
      fun ts => read (pyInt (ts * fps))
    formatted_timestamp := formatTimestamp s }

/-- The `while current_time < duration` walk of `chunk_video`
(lines 42-51), with an explicit fuel bound standing in for the source
while loop.  `walkFuel_fuel_irrelevant` below shows that any fuel above
the iteration count `⌈(D - t) / cd⌉` yields the same list, so the fuel
chosen in `chunkSpans` is just a terminating representation of the loop. -/
def walkFuel (cd D : ℚ) : ℕ → ℚ → List (ℚ × ℚ)
  | 0, _ => []
  | fuel + 1, t =>
    if t < D then (t, min (t + cd) D) :: walkFuel cd D fuel (min (t + cd) D)
    else []

/-- All `[start, end)` spans walked by `chunk_video` from `t = 0`. -/
def chunkSpans (cd D : ℚ) : List (ℚ × ℚ) :=
  walkFuel cd D ((⌈D / cd⌉).toNat + 1) 0

/-- The chunk list built by the `chunk_video` loop: one chunk per walked
span, keeping only chunks with a nonempty frame list
(`if chunk.frames: chunks.append(chunk)`, line 48). -/
def chunkVideoCore (ck : VideoChunker) (read : ℤ → Option String)
    (fps D : ℚ) : List VideoChunk :=
  ((chunkSpans ck.chunk_duration D).map
    fun p => extractChunkFrames ck read fps p.1 p.2).filter
    fun c => !c.frames.isEmpty

/-- The Python exceptions `chunk_video` can raise. -/
inductive PyError where
  | fileNotFound
  | valueError
  | zeroDivision
deriving DecidableEq

/-- The environment `chunk_video` observes: `os.path.exists`,
`cap.isOpened()`, `CAP_PROP_FPS`, `int(CAP_PROP_FRAME_COUNT)` and the
frame-retrieval oracle. -/
structure VideoEnv where
  pathExists : Bool
  opened : Bool
  fps : ℚ
  total_frames : ℕ
  read : ℤ → Option String

/-- `VideoChunker.chunk_video` (lines 30-53).  The source raises
`FileNotFoundError` when the path is missing and `ValueError` when the
stream does not open; it has no frame-rate check, so
`duration = total_frames / fps` raises `ZeroDivisionError` when the
reported fps is zero — the third branch embeds that Python division
semantics. -/
def chunkVideo (ck : VideoChunker) (v : VideoEnv) :
    Except PyError (List VideoChunk) :=
  if v.pathExists = false then .error .fileNotFound
  else if v.opened = false then .error .valueError
  else if v.fps = 0 then .error .zeroDivision
  else .ok (chunkVideoCore ck v.read v.fps ((v.total_frames : ℚ) / v.fps))

/-- Concrete stream with zero reported frame rate (used for C4). -/
def envZeroFps : VideoEnv := ⟨true, true, 0, 30, fun _ => none⟩

/-- Concrete opened stream reporting zero frames (used for C4). -/
def envNoFrames : VideoEnv := ⟨true, true, 1, 0, fun _ => none⟩

/-- Concrete 5-second, 1-fps video whose every frame read succeeds (used
for C1). -/
def envC1 : VideoEnv := ⟨true, true, 1, 5, fun _ => some "frame"⟩

/-- Concrete 10-second, 1-fps video whose every frame read succeeds (used
for C2). -/
def envGood : VideoEnv := ⟨true, true, 1, 10, fun _ => some "f"⟩

/-- Concrete 10-second, 1-fps video whose reads fail on the first five
frame positions (used for C2): the chunk spanning `[0, 5)` retrieves no
frame and is dropped. -/
def envBad : VideoEnv :=
  ⟨true, true, 1, 10, fun n => if n < 5 then none else some "f"⟩

/-! ## prompt_builder.py -/

/-- `context_lines = context.strip().split('\n')` (prompt_builder.py
line 117). -/
def contextLines (context : String) : List String :=
  pySplitNL (pyStrip context)

/-- `recent_lines = context_lines[-8:] if len(context_lines) > 8 else
context_lines` (line 118). -/
def recentLines (context : String) : List String :=
  if 8 < (contextLines context).length then
    (contextLines context).drop ((contextLines context).length - 8)
  else contextLines context

/-- `recent_context = '\n'.join(recent_lines)` (line 119). -/
def recentContext (context : String) : String :=
  joinSep "\n" (recentLines context)

/-- `words = (' '.join(context_lines)).lower().split()` (lines 122-123). -/
def contextWords (context : String) : List String :=
  pySplitWs (pyLower (joinSep " " (contextLines context)))

/-- The stopword list of line 128. -/
def stopTokens : List String :=
  ["user", "assistant", "your", "that", "this", "with", "good", "nice",
   "great"]

/-- The `common_items` accumulation loop (lines 125-130): keep, in first
occurrence order and without duplicates, every word occurring at least
twice, longer than 3 characters and not a stopword. -/
def commonItems (context : String) : List String :=
  (contextWords context).foldl
    (fun acc word =>
      if 2 ≤ (contextWords context).count word ∧ 3 < word.length ∧
          word ∉ stopTokens ∧ word ∉ acc
      then acc ++ [word] else acc) []

/-- `items_mentioned = ', '.join(common_items[:8]) if common_items else
"setup elements"` (line 132). -/
def itemsMentioned (context : String) : String :=
  let ci := commonItems context
  if ci ≠ [] then joinSep ", " (ci.take 8) else "setup elements"

/-- `duration_guidance` (lines 102-112): three bands on the segment
duration, a word ceiling of `int(duration * 2.5)` and a one-decimal
target.  Python `if duration:` is false both for `None` and for `0.0`. -/
def durationGuidance : Option ℚ → String
  | none => ""
  | some d =>
    if d = 0 then ""
    else
      let max_words := pyInt (d * (5/2))
      if d ≤ 12 then
        "TIMING: Keep it short! Just 1 quick exchange (User + AI). Max " ++
          toString max_words ++
          " words total. AI should point out something they notice. Target: "
          ++ fmt1 d ++ " seconds."
      else if d ≤ 20 then
        "TIMING: 2 exchanges max. Max " ++ toString max_words ++
          " words total. Keep it casual and conversational. Target: " ++
          fmt1 d ++ " seconds."
      else
        "TIMING: Up to 3 exchanges. Max " ++ toString max_words ++
          " words total. Natural chat flow with some visual observations. Target: "
          ++ fmt1 d ++ " seconds."

/-- Literal segments of the with-context prompt template (lines 134-147). -/
def ctxPromptA : String :=
  "Continue this casual conversation based on these new video frames.\n\n**RECENT CHAT:**\n"

/-- Second literal segment of the with-context prompt template. -/
def ctxPromptB : String := "\n\n**YOU\x27VE ALREADY TALKED ABOUT:** "

/-- Third literal segment of the with-context prompt template. -/
def ctxPromptC : String :=
  "\n\n**IMPORTANT:** Keep the conversation flowing naturally! Don\x27t repeat stuff you\x27ve already covered. Focus on what\x27s happening NOW or new things you notice.\n\n**WHAT AI SHOULD DO:** Point out details, read any text you see, mention brands/objects. Be observant but casual about it.\n\n**CONVERSATION VIBE:** Natural interruptions, casual reactions, User might ask obvious questions, AI gives friendly informative answers.\n\n**"

/-- Final literal segment of the with-context prompt template. -/
def ctxPromptD : String :=
  "** Keep sentences short and conversational - like texting friends."

/-- The with-context `text_prompt` f-string (lines 134-147). -/
def textPromptWithContext (c dg : String) : String :=
  ctxPromptA ++ recentContext c ++ ctxPromptB ++ itemsMentioned c ++
    (ctxPromptC ++ dg ++ ctxPromptD)

/-- `base_instruction` (line 150). -/
def noCtxBase : String :=
  "Start a casual conversation based on these video frames."

/-- Shared body of the two no-context prompt variants (lines 152-168). -/
def noCtxBody : String :=
  "\n\n**WHAT\x27S HAPPENING:** User is filming this first-person, AI can see everything too. This is the start of their chat.\n\n**AI\x27S JOB:** Be observant! Point out details, read any text you can see, identify objects/brands naturally. Don\x27t make factual errors.\n\n**CONVERSATION STYLE:** Casual and friendly - like internet friends watching together. User might ask simple/obvious questions, AI gives helpful but casual answers."

/-- The no-context `text_prompt` (lines 149-168): the timing paragraph is
appended only when `duration_guidance` is a nonempty string. -/
def textPromptNoContext (dg : String) : String :=
  if dg ≠ "" then
    noCtxBase ++ noCtxBody ++
      ("\n\n**" ++ dg ++
        "** Short, natural sentences. Include some interruptions or casual reactions.")
  else noCtxBase ++ noCtxBody

/-- The `text_prompt` selection of `PromptBuilder.build` (lines 114-168):
Python `if context:` is false for `None` and for the empty string. -/
def buildText (ctx : Option String) (dur : Option ℚ) : String :=
  let dg := durationGuidance dur
  match ctx with
  | some c => if c = "" then textPromptNoContext dg
              else textPromptWithContext c dg
  | none => textPromptNoContext dg

/-- One content block of the Claude request: either a base64 image block
or the final text block. -/
inductive ContentBlock where
  | image (data : String)
  | text (t : String)
deriving DecidableEq

/-- `PromptBuilder.build` (lines 85-188).  Raises `ValueError` on an empty
frames list (line 99); otherwise starts from `[text_prompt]` and runs
`user_content.insert(0, image_block)` for each frame in order
(lines 177-186), which a fold with cons models exactly. -/
def pbBuild (frames : List String) (ctx : Option String) (dur : Option ℚ) :
    Except PyError (List ContentBlock) :=
  if frames = [] then .error .valueError
  else .ok (frames.foldl (fun acc f => ContentBlock.image f :: acc)
    [ContentBlock.text (buildText ctx dur)])

/-! ## claude_runner.py -/

/-- Outcome of one `client.messages.create` attempt: a response with text
content, a response with empty content, or one of the three caught
exception classes (claude_runner.py lines 107-137). -/
inductive ApiOutcome where
  | success (text : String)
  | empty
  | rateLimit
  | apiError
  | otherError
deriving DecidableEq

/-- The `for attempt in range(max_retries)` loop of
`_call_claude_with_retry` (lines 103-140), with the API as an oracle
indexed by the absolute attempt number.  `rem` is the number of attempts
still available, so the source guard `attempt < max_retries - 1` is
`0 < rem` after the current attempt is consumed.  The result records the
returned value, the chronological list of sleep durations
(`retry_delay * 2 ** attempt` after a rate limit, `retry_delay` after an
`APIError` or any other exception, nothing after an empty response), and
the number of attempts made. -/
def retryLoop (rd : ℚ) (oracle : ℕ → ApiOutcome) :
    ℕ → ℕ → Option String × List ℚ × ℕ
  | _, 0 => (none, [], 0)
  | attempt, rem + 1 =>
    match oracle attempt with
    | .success t => (some t, [], 1)
    | .empty =>
      let r := retryLoop rd oracle (attempt + 1) rem
      (r.1, r.2.1, r.2.2 + 1)
    | .rateLimit =>
      let r := retryLoop rd oracle (attempt + 1) rem
      (r.1, (if 0 < rem then [rd * 2 ^ attempt] else []) ++ r.2.1,
        r.2.2 + 1)
    | .apiError =>
      let r := retryLoop rd oracle (attempt + 1) rem
      (r.1, (if 0 < rem then [rd] else []) ++ r.2.1, r.2.2 + 1)
    | .otherError =>
      let r := retryLoop rd oracle (attempt + 1) rem
      (r.1, (if 0 < rem then [rd] else []) ++ r.2.1, r.2.2 + 1)

/-- `ClaudeRunner._call_claude_with_retry` (lines 92-140): run the attempt
loop from attempt 0 with `max_retries` attempts available; when no attempt
returns text the loop falls through and returns `None` (line 140). -/
def callClaudeWithRetry (max_retries : ℕ) (retry_delay : ℚ)
    (oracle : ℕ → ApiOutcome) : Option String × List ℚ × ℕ :=
  retryLoop retry_delay oracle 0 max_retries

/-- The attempt outcomes the source catches as exceptions (as opposed to
a returned response, possibly with empty content). -/
def isApiException : ApiOutcome → Bool
  | .rateLimit => true
  | .apiError => true
  | .otherError => true
  | _ => false

/-- `ClaudeRunner._clean_response` (lines 142-171), step for step:
empty-string early return; `strip`; drop the first and last lines when the
stripped text starts with three backticks and has more than two lines;
normalize CRLF and CR to LF; keep the stripped form of every line whose
stripped form is nonempty. -/
def cleanResponse (response_text : String) : String :=
  if response_text = "" then ""
  else
    let cleaned := pyStrip response_text
    let cleaned :=
      if pyStartsWith cleaned "```" then
        let lines := pySplitNL cleaned
        if 2 < lines.length then joinSep "\n" ((lines.drop 1).dropLast)
        else cleaned
      else cleaned
    let cleaned := String.mk (normalizeEolList cleaned.data)
    joinSep "\n" (((pySplitNL cleaned).map pyStrip).filter
      fun l => l ≠ "")

/-- Spec-side fence stripping: when the text starts with three backticks
and has more than two lines, remove the first and the last line —
regardless of whether the last line is itself a fence. -/
def stripFenceBlock (t : String) : String :=
  if pyStartsWith t "```" ∧ 2 < (pySplitNL t).length then
    joinSep "\n" (((pySplitNL t).drop 1).dropLast)
  else t

/-- Spec-side line-ending normalization: CRLF and CR become LF. -/
def normalizeEol (s : String) : String :=
  String.mk (normalizeEolList s.data)

/-- Spec-side tidy step: per-line strip, then drop blank lines. -/
def tidyLines (s : String) : List String :=
  ((pySplitNL s).map pyStrip).filter fun l => l ≠ ""

/-- The response post-processing pipeline as the spec words it: strip,
fence-strip, normalize line endings, trim lines and drop blanks, rejoin. -/
def cleanSpec (s : String) : String :=
  if s = "" then ""
  else joinSep "\n" (tidyLines (normalizeEol (stripFenceBlock (pyStrip s))))

/-- `ClaudeRunner.generate_dialogue` (lines 55-90).  An empty frames list
returns `None` before any work happens (lines 68-70).  Otherwise the
prompt is built (a raised `ValueError` would be caught by the enclosing
`try`, giving `None` with no API attempt), the retry loop runs, and a
truthy response text is cleaned and returned — Python `if response:`
treats the empty string like a failure.  The second component counts API
attempts actually made. -/
def generateDialogue (max_retries : ℕ) (retry_delay : ℚ)
    (oracle : ℕ → ApiOutcome) (frames : List String) (_timestamp : String)
    (context : Option String) (duration : Option ℚ) : Option String × ℕ :=
  if frames = [] then (none, 0)
  else
    match pbBuild frames context duration with
    | .error _ => (none, 0)
    | .ok _user_content =>
      let r := callClaudeWithRetry max_retries retry_delay oracle
      match r.1 with
      | some t => if t = "" then (none, r.2.2)
                  else (some (cleanResponse t), r.2.2)
      | none => (none, r.2.2)

/-! ## generate_transcript.py -/

/-- A transcript record appended by `process_single_video`
(generate_transcript.py lines 114-117). -/
structure TranscriptEntry where
  timestamp : ℚ
  dialogue : String
deriving DecidableEq

/-- The loop state of `process_single_video`: `full_transcript` and the
cumulative context accumulator `all_previous_dialogue` (lines 95-96). -/
structure LoopState where
  full_transcript : List TranscriptEntry
  all_previous_dialogue : String
deriving DecidableEq

/-- `context_to_pass = all_previous_dialogue if all_previous_dialogue else
None` (line 109). -/
def contextToPass (acc : String) : Option String :=
  if acc = "" then none else some acc

/-- One iteration of the chunk loop (lines 102-120).  The call to
`runner.generate_dialogue` is abstracted as an oracle `gen` receiving the
context actually passed and the chunk (the concrete argument list at
line 110-111, including the broken `chunk.duration` read, is treated under
the attribute-access development around `VideoChunk.getattr`).  Python
`if dialogue:` is false for `None` and for the empty string; in both
cases nothing is appended and the accumulator is untouched, otherwise one
entry is appended and the accumulator grows by `dialogue + "\n"`. -/
def stepChunk (gen : Option String → VideoChunk → Option String)
    (st : LoopState) (c : VideoChunk) : LoopState :=
  match gen (contextToPass st.all_previous_dialogue) c with
  | some d =>
    if d = "" then st
    else
      { full_transcript := st.full_transcript ++ [⟨c.start_time, d⟩]
        all_previous_dialogue := st.all_previous_dialogue ++ d ++ "\n" }
  | none => st

/-- The full chunk loop of `process_single_video`, starting from an empty
transcript and an empty accumulator. -/
def processChunks (gen : Option String → VideoChunk → Option String)
    (chunks : List VideoChunk) : LoopState :=
  chunks.foldl (stepChunk gen) ⟨[], ""⟩

/-! ## Helper lemmas -/

/-- Evaluate a concrete floor from its two bounding inequalities. -/
lemma qfloor_eval (q : ℚ) (z : ℤ) (h1 : (z : ℚ) ≤ q) (h2 : q < z + 1) :
    ⌊q⌋ = z :=
  Int.floor_eq_iff.mpr ⟨h1, h2⟩

/-- Evaluate a concrete ceiling from its two bounding inequalities. -/
lemma qceil_eval (q : ℚ) (z : ℤ) (h1 : (z : ℚ) - 1 < q) (h2 : q ≤ z) :
    ⌈q⌉ = z :=
  Int.ceil_eq_iff.mpr ⟨h1, h2⟩

/-- The ceiling measure of the chunk walk strictly decreases at each
iteration. -/
lemma ceil_step (cd D t : ℚ) (hcd : 0 < cd) (ht : t < D) :
    (⌈(D - min (t + cd) D) / cd⌉).toNat < (⌈(D - t) / cd⌉).toNat := by
  have hpos : 0 < (D - t) / cd := div_pos (by linarith) hcd
  have h1 : 0 < ⌈(D - t) / cd⌉ := Int.ceil_pos.mpr hpos
  rcases le_or_lt (t + cd) D with h | h
  · rw [min_eq_left h]
    have he : (D - (t + cd)) / cd = (D - t) / cd - 1 := by
      rw [show D - (t + cd) = D - t - cd by ring, sub_div, div_self hcd.ne']
    rw [he, Int.ceil_sub_one]
    omega
  · rw [min_eq_right h.le, sub_self, zero_div, Int.ceil_zero]
    omega

/-- Every span walked from `t` starts no earlier than `t`, is nonempty,
satisfies the walk rule `end = min (start + cd) D`, and ends by `D`. -/
lemma walkFuel_mem_bounds (cd D : ℚ) (hcd : 0 < cd) :
    ∀ (f : ℕ) (t : ℚ), ∀ p ∈ walkFuel cd D f t,
      t ≤ p.1 ∧ p.1 < p.2 ∧ p.2 = min (p.1 + cd) D ∧ p.2 ≤ D := by
  intro f
  induction f with
  | zero => intro t p hp; simp [walkFuel] at hp
  | succ n ih =>
    intro t p hp
    by_cases h : t < D
    · simp only [walkFuel, if_pos h] at hp
      rcases List.mem_cons.mp hp with rfl | hmem
      · exact ⟨le_refl t, lt_min (by linarith) h, rfl, min_le_right _ _⟩
      · obtain ⟨h1, h2, h3, h4⟩ := ih (min (t + cd) D) p hmem
        have ht' : t < min (t + cd) D := lt_min (by linarith) h
        exact ⟨le_trans ht'.le h1, h2, h3, h4⟩
    · simp only [walkFuel, if_neg h] at hp
      simp at hp

/-- Walked spans are pairwise non-overlapping: each ends before the next
begins. -/
lemma walkFuel_pairwise (cd D : ℚ) (hcd : 0 < cd) :
    ∀ (f : ℕ) (t : ℚ),
      List.Pairwise (fun p q : ℚ × ℚ => p.2 ≤ q.1) (walkFuel cd D f t) := by
  intro f
  induction f with
  | zero => intro t; simp [walkFuel]
  | succ n ih =>
    intro t
    by_cases h : t < D
    · simp only [walkFuel, if_pos h]
      refine List.Pairwise.cons ?_ (ih _)
      intro q hq
      exact (walkFuel_mem_bounds cd D hcd n (min (t + cd) D) q hq).1
    · simp only [walkFuel, if_neg h]
      exact List.Pairwise.nil

/-- The first walked span starts exactly at the walk position. -/
lemma walkFuel_head_fst (cd D : ℚ) :
    ∀ (f : ℕ) (t : ℚ) (p : ℚ × ℚ),
      (walkFuel cd D f t).head? = some p → p.1 = t := by
  intro f t p h
  cases f with
  | zero => simp [walkFuel] at h
  | succ n =>
    by_cases ht : t < D
    · simp only [walkFuel, if_pos ht, List.head?_cons] at h
      rw [← Option.some.inj h]
    · simp only [walkFuel, if_neg ht] at h
      simp at h

/-- Walked spans are contiguous: each span ends where the next starts. -/
lemma walkFuel_chain (cd D : ℚ) :
    ∀ (f : ℕ) (t : ℚ),
      List.Chain' (fun p q : ℚ × ℚ => p.2 = q.1) (walkFuel cd D f t) := by
  intro f
  induction f with
  | zero => intro t; simp [walkFuel]
  | succ n ih =>
    intro t
    by_cases h : t < D
    · simp only [walkFuel, if_pos h]
      rw [List.chain'_cons']
      refine ⟨fun q hq => ?_, ih _⟩
      exact (walkFuel_head_fst cd D n _ q (Option.mem_def.mp hq)).symm
    · simp only [walkFuel, if_neg h]
      exact List.chain'_nil

/-- With fuel above the ceiling measure, every point of `[t, D)` is
covered by some walked span. -/
lemma walkFuel_cover (cd D : ℚ) (hcd : 0 < cd) :
    ∀ (f : ℕ) (t x : ℚ), (⌈(D - t) / cd⌉).toNat < f → t ≤ x → x < D →
      ∃ p ∈ walkFuel cd D f t, p.1 ≤ x ∧ x < p.2 := by
  intro f
  induction f with
  | zero => intro t x hf; omega
  | succ n ih =>
    intro t x hf htx hxD
    have ht : t < D := lt_of_le_of_lt htx hxD
    simp only [walkFuel, if_pos ht]
    by_cases hx : x < min (t + cd) D
    · exact ⟨(t, min (t + cd) D), List.mem_cons_self _ _, htx, hx⟩
    · push_neg at hx
      have hstep := ceil_step cd D t hcd ht
      obtain ⟨p, hp, h1, h2⟩ := ih (min (t + cd) D) x (by omega) hx hxD
      exact ⟨p, List.mem_cons_of_mem _ hp, h1, h2⟩

/-- Any two fuels above the ceiling measure produce the same walk, so the
fuel in `chunkSpans` is irrelevant: it is just a terminating encoding of
the source while loop. -/
lemma walkFuel_fuel_irrelevant (cd D : ℚ) (hcd : 0 < cd) :
    ∀ (f₁ f₂ : ℕ) (t : ℚ), (⌈(D - t) / cd⌉).toNat < f₁ →
      (⌈(D - t) / cd⌉).toNat < f₂ →
      walkFuel cd D f₁ t = walkFuel cd D f₂ t := by
  intro f₁
  induction f₁ with
  | zero => intro f₂ t h1; omega
  | succ n ih =>
    intro f₂ t h1 h2
    cases f₂ with
    | zero => omega
    | succ m =>
      by_cases ht : t < D
      · simp only [walkFuel, if_pos ht]
        have hstep := ceil_step cd D t hcd ht
        rw [ih m (min (t + cd) D) (by omega) (by omega)]
      · simp only [walkFuel, if_neg ht]

/-- A `filterMap` whose function succeeds on every element keeps the
length of the input list. -/
lemma length_filterMap_of_isSome {α β : Type} (g : α → Option β)
    (l : List α) (h : ∀ a ∈ l, (g a).isSome = true) :
    (l.filterMap g).length = l.length := by
  induction l with
  | nil => rfl
  | cons a l ih =>
    obtain ⟨b, hb⟩ := Option.isSome_iff_exists.mp (h a (List.mem_cons_self a l))
    rw [List.filterMap_cons, hb, List.length_cons,
      ih fun x hx => h x (List.mem_cons_of_mem a hx)]
    rfl

/-- A chunk always requests exactly `frames_per_chunk` timestamps. -/
lemma length_sampleTimestamps (k : ℕ) (s e : ℚ) :
    (sampleTimestamps k s e).length = k := by
  unfold sampleTimestamps
  rw [List.length_map, List.length_range]

/-- When frame retrieval always succeeds and at least one frame is
requested per chunk, no chunk is dropped by the `if chunk.frames` filter:
`chunk_video` emits one chunk per walked span. -/
lemma chunkVideoCore_total (ck : VideoChunker) (read : ℤ → Option String)
    (fps D : ℚ) (hk : 1 ≤ ck.frames_per_chunk)
    (hr : ∀ n, (read n).isSome = true) :
    chunkVideoCore ck read fps D =
      (chunkSpans ck.chunk_duration D).map
        fun p => extractChunkFrames ck read fps p.1 p.2 := by
  unfold chunkVideoCore
  rw [List.filter_eq_self]
  intro c hc
  obtain ⟨p, hp, rfl⟩ := List.mem_map.mp hc
  have hlen : (extractChunkFrames ck read fps p.1 p.2).frames.length =
      ck.frames_per_chunk := by
    unfold extractChunkFrames
    rw [length_filterMap_of_isSome _ _ fun a _ => hr _,
      length_sampleTimestamps]
  simp only [Bool.not_eq_true']
  have hne : (extractChunkFrames ck read fps p.1 p.2).frames ≠ [] := by
    intro h0
    rw [h0] at hlen
    simp at hlen
    omega
  rw [List.isEmpty_eq_false_iff_exists_mem]
  exact List.exists_mem_of_ne_nil _ hne

/-- Every word the `common_items` fold accumulates satisfies the filter
condition: frequency at least 2, length above 3, not a stopword. -/
lemma commonItems_mem_aux (ws : List String) :
    ∀ (l acc : List String),
      (∀ w ∈ acc, 2 ≤ ws.count w ∧ 3 < w.length ∧ w ∉ stopTokens) →
      ∀ w ∈ l.foldl (fun acc word =>
        if 2 ≤ ws.count word ∧ 3 < word.length ∧ word ∉ stopTokens ∧
            word ∉ acc
        then acc ++ [word] else acc) acc,
        2 ≤ ws.count w ∧ 3 < w.length ∧ w ∉ stopTokens := by
  intro l
  induction l with
  | nil => intro acc hacc w hw; exact hacc w hw
  | cons a l ih =>
    intro acc hacc w hw
    rw [List.foldl_cons] at hw
    by_cases hc : 2 ≤ ws.count a ∧ 3 < a.length ∧ a ∉ stopTokens ∧ a ∉ acc
    · rw [if_pos hc] at hw
      refine ih (acc ++ [a]) ?_ w hw
      intro x hx
      rcases List.mem_append.mp hx with hx | hx
      · exact hacc x hx
      · rw [List.mem_singleton] at hx
        subst hx
        exact ⟨hc.1, hc.2.1, hc.2.2.1⟩
    · rw [if_neg hc] at hw
      exact ih acc hacc w hw

/-- The retry loop makes at most as many attempts as it has remaining. -/
lemma retryLoop_attempts_le (rd : ℚ) (o : ℕ → ApiOutcome) :
    ∀ (rem a : ℕ), (retryLoop rd o a rem).2.2 ≤ rem := by
  intro rem
  induction rem with
  | zero => intro a; simp [retryLoop]
  | succ n ih =>
    intro a
    simp only [retryLoop]
    cases h : o a with
    | success t => simp
    | empty => have := ih (a + 1); simp; omega
    | rateLimit => have := ih (a + 1); simp; omega
    | apiError => have := ih (a + 1); simp; omega
    | otherError => have := ih (a + 1); simp; omega

/-- The retry loop consults the oracle only at the attempts it can
actually make. -/
lemma retryLoop_congr (rd : ℚ) (o o' : ℕ → ApiOutcome) :
    ∀ (rem a : ℕ), (∀ i, a ≤ i → i < a + rem → o i = o' i) →
      retryLoop rd o a rem = retryLoop rd o' a rem := by
  intro rem
  induction rem with
  | zero => intro a h; rfl
  | succ n ih =>
    intro a h
    have hoa : o a = o' a := h a le_rfl (by omega)
    have ih' := ih (a + 1) fun i h1 h2 => h i (by omega) (by omega)
    simp only [retryLoop, hoa, ih']

/-- When no attempt returns text, the retry loop returns `None`. -/
lemma retryLoop_none (rd : ℚ) (o : ℕ → ApiOutcome) :
    ∀ (rem a : ℕ), (∀ i, a ≤ i → i < a + rem → ∀ t, o i ≠ .success t) →
      (retryLoop rd o a rem).1 = none := by
  intro rem
  induction rem with
  | zero => intro a h; rfl
  | succ n ih =>
    intro a h
    have ih' := ih (a + 1) fun i h1 h2 t => h i (by omega) (by omega) t
    cases ho : o a with
    | success t => exact absurd ho (h a le_rfl (by omega) t)
    | empty => simp [retryLoop, ho, ih']
    | rateLimit => simp [retryLoop, ho, ih']
    | apiError => simp [retryLoop, ho, ih']
    | otherError => simp [retryLoop, ho, ih']

/-- When every available attempt raises, the retry loop returns `None`,
sleeps `rd * 2 ^ attempt` after each rate limit and `rd` after each other
exception — except after the final attempt — and uses all attempts. -/
lemma retryLoop_all_exc (rd : ℚ) (o : ℕ → ApiOutcome) :
    ∀ (rem a : ℕ), (∀ i, a ≤ i → i < a + rem → isApiException (o i) = true) →
      retryLoop rd o a rem =
        (none, (List.range' a (rem - 1)).map
          (fun i => if o i = .rateLimit then rd * 2 ^ i else rd), rem) := by
  intro rem
  induction rem with
  | zero => intro a h; simp [retryLoop]
  | succ n ih =>
    intro a h
    have ha := h a le_rfl (by omega)
    have ih' := ih (a + 1) fun i h1 h2 => h i (by omega) (by omega)
    cases ho : o a with
    | success t => rw [ho] at ha; simp [isApiException] at ha
    | empty => rw [ho] at ha; simp [isApiException] at ha
    | rateLimit =>
      simp only [retryLoop, ho, ih']
      cases n with
      | zero => simp
      | succ m =>
        rw [Nat.add_sub_cancel, Nat.add_sub_cancel, List.range'_succ]
        simp [ho]
    | apiError =>
      simp only [retryLoop, ho, ih']
      cases n with
      | zero => simp
      | succ m =>
        rw [Nat.add_sub_cancel, Nat.add_sub_cancel, List.range'_succ]
        simp [ho]
    | otherError =>
      simp only [retryLoop, ho, ih']
      cases n with
      | zero => simp
      | succ m =>
        rw [Nat.add_sub_cancel, Nat.add_sub_cancel, List.range'_succ]
        simp [ho]

/-- A `filterMap` with a constant successful function is a constant map. -/
lemma filterMap_const_some {α β : Type} (b : β) (l : List α) :
    (l.filterMap fun _ => some b) = l.map fun _ => b := by
  induction l with
  | nil => rfl
  | cons a l ih => simp [List.filterMap_cons, ih]

/-- A nonpositive duration makes the chunk walk produce no spans. -/
lemma chunkSpans_of_nonpos (cd D : ℚ) (hD : ¬ (0:ℚ) < D) :
    chunkSpans cd D = [] := by
  unfold chunkSpans
  simp only [walkFuel, if_neg hD]

/-! ## Claim theorems -/

/-- Claim C10: for an empty frames list, `generate_dialogue` returns
`None` immediately — zero API attempts are made and no exception escapes —
and the prompt builder is never reached (it would raise `ValueError` on an
empty frames list). -/
theorem c10_empty_frames_short_circuit :
    (∀ (mr : ℕ) (rd : ℚ) (o : ℕ → ApiOutcome) (ts : String)
      (ctx : Option String) (dur : Option ℚ),
      generateDialogue mr rd o [] ts ctx dur = (none, 0)) ∧
    (∀ (ctx : Option String) (dur : Option ℚ),
      pbBuild [] ctx dur = .error .valueError) :=
  ⟨fun _ _ _ _ _ _ => rfl, fun _ _ => rfl⟩

/-- Claim C5: when the generation call fails (`None`, or the falsy empty
string), the loop appends no `TranscriptEntry` and leaves the context
accumulator byte-identical, so the next chunk sees the same context; on a
successful nonempty dialogue exactly one entry with the chunk start time
and the cleaned dialogue is appended and the accumulator is extended by
that dialogue plus a newline. -/
theorem c5_gap_policy (gen : Option String → VideoChunk → Option String)
    (st : LoopState) (c : VideoChunk) :
    ((gen (contextToPass st.all_previous_dialogue) c = none ∨
      gen (contextToPass st.all_previous_dialogue) c = some "") →
      stepChunk gen st c = st) ∧
    (∀ d, d ≠ "" →
      gen (contextToPass st.all_previous_dialogue) c = some d →
      stepChunk gen st c =
        ⟨st.full_transcript ++ [⟨c.start_time, d⟩],
         st.all_previous_dialogue ++ d ++ "\n"⟩) := by
  constructor
  · rintro (h | h)
    · simp [stepChunk, h]
    · simp [stepChunk, h]
  · intro d hd h
    simp [stepChunk, h, hd]

/-- Witness for C5 at a concrete failing generator. -/
theorem c5_gap_policy_witness :
    stepChunk (fun _ _ => none) ⟨[], ""⟩ ⟨0, 5, ["f"], "[00:00]"⟩ =
      ⟨[], ""⟩ :=
  (c5_gap_policy (fun _ _ => none) ⟨[], ""⟩ ⟨0, 5, ["f"], "[00:00]"⟩).1
    (Or.inl rfl)

/-- Prepending each mapped element in turn reverses the list. -/
lemma foldl_cons_rev {α β : Type} (g : α → β) :
    ∀ (l : List α) (acc : List β),
      l.foldl (fun acc x => g x :: acc) acc = l.reverse.map g ++ acc := by
  intro l
  induction l with
  | nil => intro acc; simp
  | cons a l ih => intro acc; simp [ih]

/-- Claim C7: the images in the built request appear in REVERSE input
order, not input order: `user_content.insert(0, ...)` inside a forward
loop prepends each frame, so `["A", "B"]` yields image blocks `B, A`
before the text block, contradicting the source comment "insert at
beginning to maintain original order" and the spec. -/
theorem c7_image_order_reversed :
    pbBuild ["A", "B"] none none =
      .ok [.image "B", .image "A", .text (buildText none none)] ∧
    (∀ (f : String) (frames : List String) (ctx : Option String)
      (dur : Option ℚ),
      pbBuild (f :: frames) ctx dur =
        .ok ((f :: frames).reverse.map ContentBlock.image ++
          [ContentBlock.text (buildText ctx dur)])) := by
  constructor
  · rfl
  · intro f frames ctx dur
    simp [pbBuild, foldl_cons_rev]

/-- Counterexample to C9 as stated: a response that merely STARTS with a
code fence but is not wrapped in one still loses its first and last
lines, so the non-fence dialogue line `AI: yo` is removed. -/
theorem c9_fence_strip_drops_last_line :
    cleanResponse "```\nUser: hi\nAI: yo" = "User: hi" ∧
    "AI: yo" ∉ pySplitNL (cleanResponse "```\nUser: hi\nAI: yo") := by
  constructor
  · decide
  · decide

/-- Claim C9 (amended): `_clean_response` equals the pipeline
strip, then drop the first and last lines whenever the text starts with
``` and has more than two lines (fence or not), then normalize CRLF and
CR to LF, then strip every line and drop the blank ones. -/
theorem c9_clean_response_spec (s : String) :
    cleanResponse s = cleanSpec s := by
  by_cases h0 : s = ""
  · simp [cleanResponse, cleanSpec, h0]
  · by_cases h1 : pyStartsWith (pyStrip s) "```" = true
    · by_cases h2 : 2 < (pySplitNL (pyStrip s)).length
      · simp only [cleanResponse, cleanSpec, stripFenceBlock, normalizeEol,
          tidyLines, if_neg h0, if_pos h1, if_pos h2,
          if_pos (And.intro h1 h2)]
      · simp only [cleanResponse, cleanSpec, stripFenceBlock, normalizeEol,
          tidyLines, if_neg h0, if_pos h1, if_neg h2,
          if_neg (fun hc : _ ∧ _ => h2 hc.2)]
    · simp only [cleanResponse, cleanSpec, stripFenceBlock, normalizeEol,
        tidyLines, if_neg h0, if_neg h1,
        if_neg (fun hc : _ ∧ _ => h1 hc.1)]

/-- Claim C6: the context excerpt is the most recent bounded window of the
accumulated dialogue (the last 8 lines when more than 8 exist, otherwise
all of them), the topic tokens all occur at least twice, are longer than
3 characters and avoid the stopword set, and the built prompt embeds the
window and the token summary; as a Lean function of the transcript string
the derivation is pure by construction. -/
theorem c6_context_excerpt (context : String) (h : context ≠ "")
    (dur : Option ℚ) :
    (recentLines context).length = min 8 (contextLines context).length ∧
    List.IsSuffix (recentLines context) (contextLines context) ∧
    (∀ w ∈ commonItems context,
      2 ≤ (contextWords context).count w ∧ 3 < w.length ∧
        w ∉ stopTokens) ∧
    (∃ pre mid post, buildText (some context) dur =
      pre ++ recentContext context ++ mid ++ itemsMentioned context ++
        post) := by
  refine ⟨?_, ?_, ?_, ?_⟩
  · unfold recentLines
    split_ifs with h8
    · rw [List.length_drop]
      omega
    · push_neg at h8
      omega
  · unfold recentLines
    split_ifs with h8
    · exact List.drop_suffix _ _
    · exact List.suffix_refl _
  · exact commonItems_mem_aux (contextWords context) (contextWords context)
      [] (fun w hw => absurd hw (List.not_mem_nil w))
  · refine ⟨ctxPromptA, ctxPromptB,
      ctxPromptC ++ durationGuidance dur ++ ctxPromptD, ?_⟩
    unfold buildText
    simp [h, textPromptWithContext]

/-- Witness for C6 at a concrete two-line context. -/
theorem c6_context_excerpt_witness :
    (recentLines "User: hi\nAI: yo").length =
      min 8 (contextLines "User: hi\nAI: yo").length :=
  (c6_context_excerpt "User: hi\nAI: yo" (by decide) none).1

/-- Claim C3: the sampling timestamps are exactly
`s + i * (e - s) / (k + 1)` for `i = 1..k`, strictly increasing and
strictly interior to `(s, e)`, and the chunk keeps at most `k` frames
(failed retrievals are skipped by `filterMap`). -/
theorem c3_frame_sampling (ck : VideoChunker) (read : ℤ → Option String)
    (fps s e : ℚ) (hse : s < e) (hk : 1 ≤ ck.frames_per_chunk) :
    sampleTimestamps ck.frames_per_chunk s e =
      (List.range ck.frames_per_chunk).map (fun (i : ℕ) =>
        s + ((i : ℚ) + 1) *
          ((e - s) / ((ck.frames_per_chunk : ℚ) + 1))) ∧
    (sampleTimestamps ck.frames_per_chunk s e).length =
      ck.frames_per_chunk ∧
    sampleTimestamps ck.frames_per_chunk s e ≠ [] ∧
    List.Pairwise (· < ·) (sampleTimestamps ck.frames_per_chunk s e) ∧
    (∀ t ∈ sampleTimestamps ck.frames_per_chunk s e, s < t ∧ t < e) ∧
    (extractChunkFrames ck read fps s e).frames.length ≤
      ck.frames_per_chunk := by
  have hd : 0 < (e - s) / ((ck.frames_per_chunk : ℚ) + 1) :=
    div_pos (by linarith) (by positivity)
  refine ⟨rfl, length_sampleTimestamps _ _ _, ?_, ?_, ?_, ?_⟩
  · intro hnil
    have hl := length_sampleTimestamps ck.frames_per_chunk s e
    rw [hnil] at hl
    simp at hl
    omega
  · unfold sampleTimestamps
    rw [List.pairwise_map]
    refine List.Pairwise.imp ?_ (List.pairwise_lt_range _)
    intro i j hij
    have hij' : ((i : ℚ) + 1) < ((j : ℚ) + 1) := by
      exact_mod_cast Nat.add_lt_add_right hij 1
    exact add_lt_add_left (mul_lt_mul_of_pos_right hij' hd) s
  · intro t ht
    unfold sampleTimestamps at ht
    obtain ⟨i, hi, rfl⟩ := List.mem_map.mp ht
    have hik : i < ck.frames_per_chunk := List.mem_range.mp hi
    have hpos : 0 < ((i : ℚ) + 1) *
        ((e - s) / ((ck.frames_per_chunk : ℚ) + 1)) :=
      mul_pos (by positivity) hd
    constructor
    · linarith
    · have hlt : ((i : ℚ) + 1) < ((ck.frames_per_chunk : ℚ) + 1) := by
        exact_mod_cast Nat.add_lt_add_right hik 1
      have he : ((ck.frames_per_chunk : ℚ) + 1) *
          ((e - s) / ((ck.frames_per_chunk : ℚ) + 1)) = e - s := by
        rw [mul_comm, div_mul_cancel₀]
        positivity
      have := mul_lt_mul_of_pos_right hlt hd
      linarith
  · have h1 : (extractChunkFrames ck read fps s e).frames.length ≤
        (sampleTimestamps ck.frames_per_chunk s e).length := by
      simp only [extractChunkFrames]
      exact List.length_filterMap_le _ _
    rw [length_sampleTimestamps] at h1
    exact h1

/-- Witness for C3 at a concrete chunk. -/
theorem c3_frame_sampling_witness :
    (extractChunkFrames ⟨5, 3⟩ (fun _ => some "f") 1 0 5).frames.length ≤
      (⟨5, 3⟩ : VideoChunker).frames_per_chunk :=
  (c3_frame_sampling ⟨5, 3⟩ (fun _ => some "f") 1 0 5 (by norm_num)
    (by norm_num)).2.2.2.2.2

/-- Claim C8: the call makes at most `max_retries` attempts (its result
only depends on the oracle below `max_retries`, and the attempt count is
bounded); with no successful attempt it returns `None` instead of
raising; and when every attempt raises, the delay before each retry is
`retry_delay * 2 ^ attempt` after a rate limit and `retry_delay` after
any other error, with no delay after the final attempt. -/
theorem c8_retry_policy (mr : ℕ) (rd : ℚ) (o : ℕ → ApiOutcome) :
    (callClaudeWithRetry mr rd o).2.2 ≤ mr ∧
    (∀ o', (∀ i, i < mr → o i = o' i) →
      callClaudeWithRetry mr rd o = callClaudeWithRetry mr rd o') ∧
    ((∀ i, i < mr → ∀ t, o i ≠ .success t) →
      (callClaudeWithRetry mr rd o).1 = none) ∧
    ((∀ i, i < mr → isApiException (o i) = true) →
      callClaudeWithRetry mr rd o =
        (none, (List.range (mr - 1)).map
          (fun i => if o i = .rateLimit then rd * 2 ^ i else rd), mr)) := by
  refine ⟨retryLoop_attempts_le rd o mr 0, ?_, ?_, ?_⟩
  · intro o' h
    exact retryLoop_congr rd o o' mr 0 fun i h1 h2 => h i (by omega)
  · intro h
    exact retryLoop_none rd o mr 0 fun i h1 h2 t => h i (by omega) t
  · intro h
    rw [callClaudeWithRetry, List.range_eq_range']
    exact retryLoop_all_exc rd o mr 0 fun i h1 h2 => h i (by omega)

/-- Witness for C8: three failing attempts (rate limit, rate limit, API
error) with base delay 3 sleep 3 then 6 and return `None` after 3
attempts. -/
theorem c8_retry_policy_witness :
    callClaudeWithRetry 3 3
      (fun i => if i = 0 then .rateLimit else
        if i = 1 then .rateLimit else .apiError) = (none, [3, 6], 3) := by
  have h := (c8_retry_policy 3 3
    (fun i => if i = 0 then .rateLimit else
      if i = 1 then .rateLimit else .apiError)).2.2.2 (by decide)
  rw [h]
  norm_num [List.range_succ]

/-- Counterexample to C4 as stated: a stream that opens but reports zero
frame rate makes `chunk_video` raise `ZeroDivisionError` at
`duration = total_frames / fps` — not the claimed `Unreadable` error. -/
theorem c4_zero_fps_division_error :
    chunkVideo ⟨5, 3⟩ envZeroFps = .error .zeroDivision ∧
    PyError.zeroDivision ≠ PyError.fileNotFound ∧
    PyError.zeroDivision ≠ PyError.valueError := by
  refine ⟨?_, by decide, by decide⟩
  simp [chunkVideo, envZeroFps]

/-- Claim C4 (amended): `chunk_video` raises `FileNotFoundError` iff the
path does not exist; raises `ValueError` iff the path exists but the
stream does not open; raises `ZeroDivisionError` iff the opened stream
reports zero frame rate; and otherwise returns normally — in particular a
zero reported duration is not an error and yields the empty chunk
list. -/
theorem c4_error_characterization (ck : VideoChunker) (v : VideoEnv) :
    (chunkVideo ck v = .error .fileNotFound ↔ v.pathExists = false) ∧
    (chunkVideo ck v = .error .valueError ↔
      v.pathExists = true ∧ v.opened = false) ∧
    (chunkVideo ck v = .error .zeroDivision ↔
      v.pathExists = true ∧ v.opened = true ∧ v.fps = 0) ∧
    (v.pathExists = true → v.opened = true → v.fps ≠ 0 →
      chunkVideo ck v = .ok (chunkVideoCore ck v.read v.fps
        ((v.total_frames : ℚ) / v.fps))) ∧
    (v.pathExists = true → v.opened = true → v.fps ≠ 0 →
      v.total_frames = 0 → chunkVideo ck v = .ok []) := by
  cases hp : v.pathExists with
  | false => simp [chunkVideo, hp]
  | true =>
    cases ho : v.opened with
    | false => simp [chunkVideo, hp, ho]
    | true =>
      by_cases hf : v.fps = 0
      · simp [chunkVideo, hp, ho, hf]
      · have h5 : v.total_frames = 0 → chunkVideo ck v = .ok [] := by
          intro h0
          have hD : ((v.total_frames : ℚ)) / v.fps = 0 := by
            rw [h0]
            simp
          simp [chunkVideo, hp, ho, hf, hD, chunkVideoCore,
            chunkSpans_of_nonpos _ _ (lt_irrefl (0:ℚ))]
        refine ⟨?_, ?_, ?_, ?_, fun _ _ _ => h5⟩
        · simp [chunkVideo, hp, ho, hf]
        · simp [chunkVideo, hp, ho, hf]
        · simp [chunkVideo, hp, ho, hf]
        · intro _ _ _
          simp [chunkVideo, hp, ho, hf]

/-- Witness for C4: a zero-duration stream returns the empty list without
an error. -/
theorem c4_error_characterization_witness :
    chunkVideo ⟨5, 3⟩ envNoFrames = .ok [] :=
  (c4_error_characterization ⟨5, 3⟩ envNoFrames).2.2.2.2 rfl rfl
    (by norm_num [envNoFrames]) rfl

/-- `_format_timestamp` at 0 seconds. -/
lemma formatTimestamp_zero : formatTimestamp 0 = "[00:00]" := by
  unfold formatTimestamp
  rw [qfloor_eval ((0:ℚ) / 60) 0 (by norm_num) (by norm_num)]
  rw [qfloor_eval ((0:ℚ) - 60 * ((0:ℤ) : ℚ)) 0 (by norm_num) (by norm_num)]
  decide

/-- `_format_timestamp` at 5 seconds. -/
lemma formatTimestamp_five : formatTimestamp 5 = "[00:05]" := by
  unfold formatTimestamp
  rw [qfloor_eval ((5:ℚ) / 60) 0 (by norm_num) (by norm_num)]
  rw [qfloor_eval ((5:ℚ) - 60 * ((0:ℤ) : ℚ)) 5 (by norm_num) (by norm_num)]
  decide

/-- Claim C1 is a code bug: `VideoChunk` declares no `duration` field, so
on every chunk emitted by `chunk_video` the attribute access
`chunk.duration` performed by the generator loop fails
(an `AttributeError`), even though `end_time - start_time` is well
defined; shown both generally and on the single chunk of a concrete
5-second video. -/
theorem c1_duration_attribute_missing :
    (∀ c : VideoChunk, c.getattr "duration" = none) ∧
    chunkVideo ⟨5, 3⟩ envC1 =
      .ok [⟨0, 5, ["frame", "frame", "frame"], "[00:00]"⟩] ∧
    (VideoChunk.mk 0 5 ["frame", "frame", "frame"] "[00:00]").getattr
      "duration" = none ∧
    (VideoChunk.mk 0 5 ["frame", "frame", "frame"] "[00:00]").end_time -
      (VideoChunk.mk 0 5 ["frame", "frame", "frame"] "[00:00]").start_time =
      5 := by
  refine ⟨fun c => rfl, ?_, rfl, by norm_num⟩
  have hD : ((envC1.total_frames : ℚ)) / envC1.fps = 5 := by
    norm_num [envC1]
  have hspans : chunkSpans 5 5 = [(0, 5)] := by
    rw [chunkSpans, show ⌈(5:ℚ) / 5⌉ = 1 from by
      rw [show (5:ℚ) / 5 = 1 by norm_num]
      exact Int.ceil_one]
    rw [show ((1:ℤ).toNat + 1) = 2 from rfl]
    norm_num [walkFuel]
  have hts : sampleTimestamps 3 0 5 = [5/4, 5/2, 15/4] := by
    norm_num [sampleTimestamps, List.range_succ]
  have hex : extractChunkFrames ⟨5, 3⟩ envC1.read envC1.fps 0 5 =
      ⟨0, 5, ["frame", "frame", "frame"], "[00:00]"⟩ := by
    simp only [extractChunkFrames, VideoChunk.mk.injEq]
    refine ⟨trivial, trivial, ?_, formatTimestamp_zero⟩
    show (sampleTimestamps 3 0 5).filterMap
      (fun _ => (some "frame" : Option String)) = _
    rw [filterMap_const_some, hts]
    rfl
  have hcv : chunkVideo ⟨5, 3⟩ envC1 = .ok (chunkVideoCore ⟨5, 3⟩
      envC1.read envC1.fps ((envC1.total_frames : ℚ) / envC1.fps)) := by
    norm_num [chunkVideo, envC1]
  rw [hcv, hD]
  simp only [chunkVideoCore]
  rw [hspans]
  simp [hex]

/-- The walk of a 10-second video with 5-second chunks. -/
lemma chunkSpans_5_10 : chunkSpans 5 10 = [(0, 5), (5, 10)] := by
  rw [chunkSpans, qceil_eval ((10:ℚ) / 5) 2 (by norm_num) (by norm_num),
    show ((2:ℤ).toNat + 1) = 3 from rfl]
  norm_num [walkFuel]

/-- One sampled timestamp in `[0, 5)` with one frame per chunk. -/
lemma sampleTimestamps_1_0_5 : sampleTimestamps 1 0 5 = [5/2] := by
  norm_num [sampleTimestamps, List.range_succ]

/-- One sampled timestamp in `[5, 10)` with one frame per chunk. -/
lemma sampleTimestamps_1_5_10 : sampleTimestamps 1 5 10 = [15/2] := by
  norm_num [sampleTimestamps, List.range_succ]

/-- Claim C2 (amended): provided at least one frame is requested per
chunk and every frame retrieval succeeds (so the `if chunk.frames` filter
drops nothing), `chunk_video` emits one chunk per walked span; the spans
walked from `t = 0` with `end = min (t + chunk_duration, D)` are
contiguous, non-overlapping, and their union is exactly `[0, D)`. -/
theorem c2_spans_contiguous_cover (ck : VideoChunker) (v : VideoEnv)
    (D : ℚ) (hcd : 0 < ck.chunk_duration) (hk : 1 ≤ ck.frames_per_chunk)
    (hpath : v.pathExists = true) (hopen : v.opened = true)
    (hfps : v.fps ≠ 0) (hread : ∀ n, (v.read n).isSome = true)
    (hD : D = (v.total_frames : ℚ) / v.fps) :
    chunkVideo ck v = .ok ((chunkSpans ck.chunk_duration D).map
      fun p => extractChunkFrames ck v.read v.fps p.1 p.2) ∧
    ((chunkSpans ck.chunk_duration D).map
      fun p => extractChunkFrames ck v.read v.fps p.1 p.2).map
        (fun c => (c.start_time, c.end_time)) =
      chunkSpans ck.chunk_duration D ∧
    List.Chain' (fun p q => p.2 = q.1) (chunkSpans ck.chunk_duration D) ∧
    List.Pairwise (fun p q => p.2 ≤ q.1) (chunkSpans ck.chunk_duration D) ∧
    (∀ p ∈ chunkSpans ck.chunk_duration D,
      0 ≤ p.1 ∧ p.1 < p.2 ∧ p.2 = min (p.1 + ck.chunk_duration) D) ∧
    (∀ x : ℚ,
      (∃ p ∈ chunkSpans ck.chunk_duration D, p.1 ≤ x ∧ x < p.2) ↔
        0 ≤ x ∧ x < D) := by
  subst hD
  refine ⟨?_, ?_, ?_, ?_, ?_, ?_⟩
  · have h1 : chunkVideo ck v = .ok (chunkVideoCore ck v.read v.fps
        ((v.total_frames : ℚ) / v.fps)) := by
      simp [chunkVideo, hpath, hopen, hfps]
    rw [h1, chunkVideoCore_total ck v.read v.fps _ hk hread]
  · rw [List.map_map]
    have hc : ((fun c : VideoChunk => (c.start_time, c.end_time)) ∘
        fun p : ℚ × ℚ => extractChunkFrames ck v.read v.fps p.1 p.2) =
        fun p : ℚ × ℚ => (p.1, p.2) := rfl
    rw [hc]
    simp
  · exact walkFuel_chain _ _ _ 0
  · exact walkFuel_pairwise _ _ hcd _ 0
  · intro p hp
    obtain ⟨h1, h2, h3, _⟩ := walkFuel_mem_bounds _ _ hcd _ 0 p hp
    exact ⟨h1, h2, h3⟩
  · intro x
    constructor
    · rintro ⟨p, hp, h1, h2⟩
      obtain ⟨b1, _, _, b4⟩ := walkFuel_mem_bounds _ _ hcd _ 0 p hp
      exact ⟨le_trans b1 h1, lt_of_lt_of_le h2 b4⟩
    · rintro ⟨h0, hxD⟩
      refine walkFuel_cover _ _ hcd _ 0 x ?_ h0 hxD
      rw [sub_zero]
      omega

/-- Witness for C2: a 10-second, 1-fps, fully readable video with
5-second chunks and one frame per chunk yields chunks spanning `[0, 5)`
and `[5, 10)`. -/
theorem c2_spans_contiguous_cover_witness :
    chunkVideo ⟨5, 1⟩ envGood =
      .ok [⟨0, 5, ["f"], "[00:00]"⟩, ⟨5, 10, ["f"], "[00:05]"⟩] := by
  have h := (c2_spans_contiguous_cover ⟨5, 1⟩ envGood 10 (by norm_num)
    (by norm_num) rfl rfl (by norm_num [envGood]) (fun n => rfl)
    (by norm_num [envGood])).1
  rw [h, chunkSpans_5_10]
  have hex1 : extractChunkFrames ⟨5, 1⟩ envGood.read envGood.fps 0 5 =
      ⟨0, 5, ["f"], "[00:00]"⟩ := by
    simp only [extractChunkFrames, VideoChunk.mk.injEq]
    refine ⟨trivial, trivial, ?_, formatTimestamp_zero⟩
    show (sampleTimestamps 1 0 5).filterMap
      (fun _ => (some "f" : Option String)) = _
    rw [filterMap_const_some, sampleTimestamps_1_0_5]
    rfl
  have hex2 : extractChunkFrames ⟨5, 1⟩ envGood.read envGood.fps 5 10 =
      ⟨5, 10, ["f"], "[00:05]"⟩ := by
    simp only [extractChunkFrames, VideoChunk.mk.injEq]
    refine ⟨trivial, trivial, ?_, formatTimestamp_five⟩
    show (sampleTimestamps 1 5 10).filterMap
      (fun _ => (some "f" : Option String)) = _
    rw [filterMap_const_some, sampleTimestamps_1_5_10]
    rfl
  simp [hex1, hex2]

/-- Counterexample to C2 as stated: on `envBad` the chunk spanning
`[0, 5)` retrieves zero frames and is dropped, so the emitted spans are
`[(5, 10)]` — they do not cover `[0, 10)` (the point 0 is uncovered) and
do not start at 0. -/
theorem c2_dropped_chunk_counterexample :
    (chunkVideo ⟨5, 1⟩ envBad).map
      (List.map fun c => (c.start_time, c.end_time)) = .ok [(5, 10)] ∧
    ¬ ∃ p ∈ [((5:ℚ), (10:ℚ))], p.1 ≤ 0 ∧ (0:ℚ) < p.2 := by
  constructor
  · have h1 : chunkVideo ⟨5, 1⟩ envBad = .ok (chunkVideoCore ⟨5, 1⟩
        envBad.read envBad.fps ((envBad.total_frames : ℚ) / envBad.fps)) := by
      norm_num [chunkVideo, envBad]
    have hD : ((envBad.total_frames : ℚ)) / envBad.fps = 10 := by
      norm_num [envBad]
    have hx1 : (extractChunkFrames ⟨5, 1⟩ envBad.read envBad.fps 0
        5).frames = [] := by
      simp only [extractChunkFrames]
      rw [sampleTimestamps_1_0_5]
      have hr : envBad.read (pyInt ((5:ℚ)/2 * envBad.fps)) = none := by
        have hi : pyInt ((5:ℚ)/2 * envBad.fps) = 2 := by
          unfold pyInt
          rw [if_pos (by norm_num [envBad])]
          exact qfloor_eval _ 2 (by norm_num [envBad]) (by norm_num [envBad])
        rw [hi]
        rfl
      rw [List.filterMap_cons, hr]
      rfl
    have hx2 : extractChunkFrames ⟨5, 1⟩ envBad.read envBad.fps 5 10 =
        ⟨5, 10, ["f"], "[00:05]"⟩ := by
      simp only [extractChunkFrames, VideoChunk.mk.injEq]
      refine ⟨trivial, trivial, ?_, formatTimestamp_five⟩
      rw [sampleTimestamps_1_5_10]
      have hr : envBad.read (pyInt ((15:ℚ)/2 * envBad.fps)) = some "f" := by
        have hi : pyInt ((15:ℚ)/2 * envBad.fps) = 7 := by
          unfold pyInt
          rw [if_pos (by norm_num [envBad])]
          exact qfloor_eval _ 7 (by norm_num [envBad]) (by norm_num [envBad])
        rw [hi]
        rfl
      rw [List.filterMap_cons, hr]
      rfl
    rw [h1, hD]
    simp only [chunkVideoCore]
    rw [chunkSpans_5_10]
    simp [hx1, hx2, Except.map]
  · rintro ⟨p, hp, h1, h2⟩
    rw [List.mem_singleton] at hp
    subst hp
    norm_num at h1
